import Mathlib

/-!
Shallow embedding of the market-research survey tool's core
(src/forms_config.py and src/database.py): the form catalog, the
form-assignment allocator (`get_least_submitted_form`), the submission
store (`save_submission`) and the aggregator (`get_form_statistics`,
`get_worst_performing_names`, `get_question_rankings`).

Modelling choices:
- Database tables are Lean lists of structure values, in row order;
  `SELECT ... ORDER BY ... LIMIT 1` is modelled as the first-occurrence
  minimum of the rows under the query's sort key (a stable reading of the
  SQL sort), and `ORDER BY` as a stable insertion sort.
- Timestamps are naturals counting from the epoch 1970-01-01 (so the SQL
  `COALESCE(last_assigned, '1970-01-01'::timestamp)` is `Option.getD 0`,
  and every timestamp the program ever writes via `NOW()` is positive).
- Python exceptions are modelled by explicit control flow: a `Fault`
  value says which statement of `save_submission` raises. An uncaught
  exception triggers the `get_connection` context manager's rollback,
  returning the pre-call state. A database error raised and then caught
  inside the transaction (the counter step's inner `except`) still
  aborts the psycopg2 transaction, so the closing `conn.commit()` is
  executed by the server as a rollback: the staged submission insert is
  discarded even though the function returns `True`.
- String comparison (the SQL `ORDER BY ... name`) is code-point
  lexicographic order on the name's characters.
-/

namespace MarketResearch

/-! ## Form catalog (src/forms_config.py) -/

/-- `FORMS` of forms_config.py: each form id with its four candidate names. -/
def FORMS : List (Nat × List String) :=
  [(1, ["Philanthrifind", "Give-io", "Donathropy", "Kinderfully"]),
   (2, ["Philanthrifound", "Causenex", "Givanthropy", "Tomatchin"]),
   (3, ["Philanthri", "Give Connects", "Donanthropy", "Humanitable"]),
   (4, ["Givio Gives", "Philanthrifound", "Givanthropy", "Humanitable"]),
   (5, ["Give Connects", "Philanthrifind", "Give-io", "Tomatchin"]),
   (6, ["Philanthri", "Givio Gives", "Kinderfully", "Causenex"])]

/-- The configured form ids, in catalog order. -/
def configuredFormIds : List Nat := FORMS.map (fun p => p.1)

/-- The ids of the five configured questions (`QUESTIONS` of forms_config.py). -/
def questionIds : List String := ["q1", "q2", "q3", "q4", "q5"]

/-! ## Data model: the two persisted tables (src/database.py, `init_database_tables`) -/

/-- One row of the `form_counters` table:
`form_counters(form_id PK, submission_count, last_assigned)`. -/
structure CounterRow where
  form_id : Nat
  submission_count : Int
  last_assigned : Option Nat
deriving Repr, DecidableEq

/-- One row of the `submissions` table. -/
structure SubmissionRow where
  id : Nat
  form_id : Nat
  session_id : String
  submission_datetime : Nat
  question_1_answer : String
  question_2_answer : String
  question_3_answer : String
  question_4_answer : String
  question_5_answer : String
  top_choice : Option String
  bottom_choice : Option String
deriving Repr, DecidableEq

/-- The persistent database state: the two tables plus the `SERIAL`
sequence backing `submissions.id`. -/
structure DBState where
  form_counters : List CounterRow
  submissions : List SubmissionRow
  next_id : Nat
deriving Repr, DecidableEq

/-- The six zeroed counter rows that `init_database_tables` inserts
(forms 1-6, count 0, `last_assigned NULL`). -/
def initCounterRows : List CounterRow :=
  [⟨1, 0, none⟩, ⟨2, 0, none⟩, ⟨3, 0, none⟩, ⟨4, 0, none⟩, ⟨5, 0, none⟩, ⟨6, 0, none⟩]

/-- The database state right after `init_database_tables` ran on an empty
database: counters for forms 1-6 at zero, no submissions. -/
def initTablesState : DBState :=
  { form_counters := initCounterRows, submissions := [], next_id := 1 }

/-! ## String order used by the SQL `ORDER BY name` tie-breaks -/

/-- Strict lexicographic order on character lists, by code point. -/
def strLtAux : List Char → List Char → Bool
  | [], [] => false
  | [], _ :: _ => true
  | _ :: _, [] => false
  | a :: as, b :: bs =>
    if a.toNat < b.toNat then true
    else if b.toNat < a.toNat then false
    else strLtAux as bs

/-- `a` sorts no later than `b` alphabetically (code-point order). -/
def strLe (a b : String) : Bool := !(strLtAux b.data a.data)

/-! ## Assignment allocator: `get_least_submitted_form` (database.py lines 126-174) -/

/-- The query's sort key comparison: `ORDER BY submission_count ASC,
COALESCE(last_assigned, '1970-01-01') ASC`. `keyLt a b` says row `a`
sorts strictly before row `b`. -/
def keyLt (a b : CounterRow) : Bool :=
  decide (a.submission_count < b.submission_count) ||
    (decide (a.submission_count = b.submission_count) &&
      decide (a.last_assigned.getD 0 < b.last_assigned.getD 0))

/-- `SELECT form_id FROM form_counters ORDER BY ... LIMIT 1`: the first
row of the table attaining the minimal sort key (stable: among key-equal
rows, the earliest row in table order wins). -/
def selectMinRow : List CounterRow → Option CounterRow
  | [] => none
  | r :: rs => some (rs.foldl (fun best x => if keyLt x best then x else best) r)

/-- `UPDATE form_counters SET last_assigned = NOW() WHERE form_id = %s`. -/
def updateLastAssigned (rows : List CounterRow) (fid : Nat) (now : Nat) : List CounterRow :=
  rows.map (fun r => if r.form_id == fid then { r with last_assigned := some now } else r)

/-- `get_least_submitted_form`: pick the form with the least submissions
(ties broken by oldest `last_assigned`, NULL coalesced to the epoch),
stamp its `last_assigned` with the current time, and return its id.
If the counter table is empty, initialize counters for forms 1-6 and
return form 1 as the default. -/
def get_least_submitted_form (now : Nat) (st : DBState) : Nat × DBState :=
  match selectMinRow st.form_counters with
  | some r =>
      (r.form_id,
       { st with form_counters := updateLastAssigned st.form_counters r.form_id now })
  | none => (1, { st with form_counters := initCounterRows })

/-! ## Submission store: `save_submission` (database.py lines 177-262) -/

/-- Which statement of `save_submission`, if any, raises an exception:
`insertFail` is the submission `INSERT` raising (propagated to the outer
`except` through `get_connection`'s rollback, so `False` is returned with
the state unchanged); `counterInsertFail` and `counterUpdateFail` are the
two statements of the counter-increment step raising. The inner `except`
catches those and only logs, but the database error has already put the
psycopg2 transaction into the aborted state, so the closing
`conn.commit()` is executed by the server as a rollback: the staged
submission insert is discarded even though `True` is returned. -/
inductive Fault where
  | noFault
  | insertFail
  | counterInsertFail
  | counterUpdateFail
deriving Repr, DecidableEq

/-- `INSERT INTO form_counters ... VALUES (%s, 0, NULL) ON CONFLICT
(form_id) DO NOTHING`: create the counter row if it is missing. -/
def ensureCounterRow (rows : List CounterRow) (fid : Nat) : List CounterRow :=
  if rows.any (fun r => r.form_id == fid) then rows
  else rows ++ [{ form_id := fid, submission_count := 0, last_assigned := none }]

/-- `UPDATE form_counters SET submission_count = submission_count + 1
WHERE form_id = %s`. -/
def incrementCounter (rows : List CounterRow) (fid : Nat) : List CounterRow :=
  rows.map (fun r =>
    if r.form_id == fid then { r with submission_count := r.submission_count + 1 } else r)

/-- `save_submission(form_id, session_id, answers, top_choice,
bottom_choice)`. The answer dict lookups `answers['q1']`..`answers['q5']`
happen first, while building the parameter tuple (a missing key raises
`KeyError`, caught by the outer `except`: rollback, return `False`);
then the submission row is inserted and the counter row is ensured and
incremented inside the same transaction. A database error in either
counter statement is caught and logged by the inner `except`, but it has
aborted the transaction, so the final `conn.commit()` acts as a
rollback: the whole transaction — the submission insert included — is
discarded while `True` is still returned. Only the fault-free path
commits the insert and the increment, together. -/
def save_submission (fault : Fault) (form_id : Nat) (session_id : String)
    (answers : List (String × String)) (top_choice bottom_choice : Option String)
    (now : Nat) (st : DBState) : Bool × DBState :=
  match answers.lookup "q1", answers.lookup "q2", answers.lookup "q3",
        answers.lookup "q4", answers.lookup "q5" with
  | some a1, some a2, some a3, some a4, some a5 =>
    let row : SubmissionRow :=
      { id := st.next_id, form_id := form_id, session_id := session_id,
        submission_datetime := now,
        question_1_answer := a1, question_2_answer := a2, question_3_answer := a3,
        question_4_answer := a4, question_5_answer := a5,
        top_choice := top_choice, bottom_choice := bottom_choice }
    let st1 : DBState :=
      { st with submissions := st.submissions ++ [row], next_id := st.next_id + 1 }
    match fault with
    | Fault.insertFail => (false, st)
    | Fault.counterInsertFail => (true, st)
    | Fault.counterUpdateFail => (true, st)
    | Fault.noFault =>
        (true, { st1 with
                  form_counters :=
                    incrementCounter (ensureCounterRow st1.form_counters form_id) form_id })
  | _, _, _, _, _ => (false, st)

/-! ## Derived counting functions used to state the invariants -/

/-- The number of `submissions` rows carrying a given form id. -/
def formSubCount (subs : List SubmissionRow) (fid : Nat) : Nat :=
  (subs.filter (fun s => s.form_id == fid)).length

/-- The total `submission_count` stored in `form_counters` for a form id
(0 when no row exists; the sum collapses to the single row's count when
`form_id` is unique, as the primary key makes it). -/
def counterVal (rows : List CounterRow) (fid : Nat) : Int :=
  ((rows.filter (fun r => r.form_id == fid)).map (fun r => r.submission_count)).sum

/-- The number of `form_counters` rows carrying a given form id. -/
def matchCount (rows : List CounterRow) (fid : Nat) : Nat :=
  (rows.filter (fun r => r.form_id == fid)).length

/-! ## Reachable states

States the store can be in after `init_database_tables` ran and any
sequence of allocator calls and submission attempts followed, under
fault-free storage for the counter step (the separately-claimed
counter-step fault path deliberately lets the counter drift, which is
why it is stated on a single call rather than inside the reachability
relation). Submission inserts may still fail and roll back
(`Fault.insertFail`), and submissions with missing answers are allowed
(they fail and change nothing). -/
inductive Reachable : DBState → Prop
  | init : Reachable initTablesState
  | assign (st : DBState) (now : Nat) :
      Reachable st → Reachable (get_least_submitted_form now st).2
  | save (st : DBState) (f : Fault) (fid : Nat) (sid : String)
      (ans : List (String × String)) (top bot : Option String) (now : Nat) :
      f = Fault.noFault ∨ f = Fault.insertFail → Reachable st →
      Reachable (save_submission f fid sid ans top bot now st).2

/-- A sample submissions table used to exercise the aggregator at a
concrete input: one completed submission on form 1. -/
def sampleSubs : List SubmissionRow :=
  [{ id := 1, form_id := 1, session_id := "w1", submission_datetime := 4,
     question_1_answer := "Give-io", question_2_answer := "Donathropy",
     question_3_answer := "Kinderfully", question_4_answer := "Philanthrifind",
     question_5_answer := "Give-io", top_choice := none, bottom_choice := none }]

/-- The counter-table well-formedness invariant the reachable states keep:
the primary key `form_id` is unique, a counter row exists for every
configured form, no stored count is negative, and every form's stored
count equals its number of `submissions` rows. -/
def CountersOk (st : DBState) : Prop :=
  (st.form_counters.map (fun r => r.form_id)).Nodup ∧
  (∀ fid ∈ configuredFormIds, ∃ r ∈ st.form_counters, r.form_id = fid) ∧
  (∀ r ∈ st.form_counters, 0 ≤ r.submission_count) ∧
  ∀ fid, counterVal st.form_counters fid = (formSubCount st.submissions fid : Int)

/-! ## Aggregator: `get_form_statistics` (database.py lines 265-278) -/

/-- Insert `a` into `l` in front of the first element it `le`-precedes. -/
def insertOrd {α : Type} (le : α → α → Bool) (a : α) : List α → List α
  | [] => [a]
  | b :: bs => if le a b then a :: b :: bs else b :: insertOrd le a bs

/-- Stable insertion sort by `le`; models SQL `ORDER BY`. -/
def sortOrd {α : Type} (le : α → α → Bool) : List α → List α
  | [] => []
  | a :: as => insertOrd le a (sortOrd le as)

/-- `ORDER BY form_id` comparison. -/
def fidLe (a b : CounterRow) : Bool := decide (a.form_id ≤ b.form_id)

/-- `get_form_statistics`: `SELECT form_id, submission_count FROM
form_counters ORDER BY form_id`, returned as the ordered association of
form id to count (the Python dict built in row order). -/
def get_form_statistics (st : DBState) : List (Nat × Int) :=
  (sortOrd fidLe st.form_counters).map (fun r => (r.form_id, r.submission_count))

/-! ## Aggregator: `get_worst_performing_names` (database.py lines 281-366) -/

/-- The 24 `(form_id, name)` exposure branches of the `UNION ALL` query,
in query order: each configured form paired with each of its names
(matching the `form_names` dict restated inside the function). -/
def exposureEntries : List (Nat × String) :=
  [(1, "Philanthrifind"), (1, "Give-io"), (1, "Donathropy"), (1, "Kinderfully"),
   (2, "Philanthrifound"), (2, "Causenex"), (2, "Givanthropy"), (2, "Tomatchin"),
   (3, "Philanthri"), (3, "Give Connects"), (3, "Donanthropy"), (3, "Humanitable"),
   (4, "Givio Gives"), (4, "Philanthrifound"), (4, "Givanthropy"), (4, "Humanitable"),
   (5, "Give Connects"), (5, "Philanthrifind"), (5, "Give-io"), (5, "Tomatchin"),
   (6, "Philanthri"), (6, "Givio Gives"), (6, "Kinderfully"), (6, "Causenex")]

/-- The `all_exposures` derived table: one `name` row per submission on a
form listing that name as a candidate. -/
def allExposures (subs : List SubmissionRow) : List String :=
  exposureEntries.flatMap (fun p => List.replicate (formSubCount subs p.1) p.2)

/-- `exposure_count` of a name: its row count in `all_exposures`. -/
def exposureCount (subs : List SubmissionRow) (name : String) : Nat :=
  (allExposures subs).count name

/-- The answer stored in a submission row for question number 1-5
(the dynamically built column name `question_{n}_answer`). -/
def answerColumn : Nat → Option (SubmissionRow → String)
  | 1 => some (fun s => s.question_1_answer)
  | 2 => some (fun s => s.question_2_answer)
  | 3 => some (fun s => s.question_3_answer)
  | 4 => some (fun s => s.question_4_answer)
  | 5 => some (fun s => s.question_5_answer)
  | _ => none

/-- `vote_count` of a name for a question column: how many submissions
selected it there (`GROUP BY` + `COALESCE(vote_count, 0)` after the left
join). -/
def voteCountBy (col : SubmissionRow → String) (subs : List SubmissionRow)
    (name : String) : Nat :=
  (subs.filter (fun s => col s == name)).length

/-- One output row of `get_worst_performing_names`. -/
structure NameStat where
  name : String
  exposure_count : Nat
  vote_count : Nat
  gap : Int
deriving Repr, DecidableEq

/-- `ORDER BY gap DESC, ne.name` comparison. -/
def worstLe (a b : NameStat) : Bool :=
  decide (b.gap < a.gap) || (decide (a.gap = b.gap) && strLe a.name b.name)

/-- The per-name statistics row joined by the query. -/
def nameStatFor (col : SubmissionRow → String) (subs : List SubmissionRow)
    (name : String) : NameStat :=
  { name := name, exposure_count := exposureCount subs name,
    vote_count := voteCountBy col subs name,
    gap := (exposureCount subs name : Int) - (voteCountBy col subs name : Int) }

/-- The joined statistics rows, one per distinct exposed name (the
`GROUP BY name` of `name_exposures`: a name appears iff it has at least
one exposure row). -/
def exposedStats (col : SubmissionRow → String) (subs : List SubmissionRow) :
    List NameStat :=
  ((allExposures subs).dedup).map (nameStatFor col subs)

/-- The query's result for a given answer column: all exposed names'
rows, ordered by gap descending then name ascending, limited to 3. -/
def worstPerformingBy (col : SubmissionRow → String) (subs : List SubmissionRow) :
    List NameStat :=
  (sortOrd worstLe (exposedStats col subs)).take 3

/-- `get_worst_performing_names(question_num)`: resolve the dynamic
column name (`none` models the SQL error for a question number with no
column) and run the exposure-gap query. -/
def get_worst_performing_names (question_num : Nat) (subs : List SubmissionRow) :
    Option (List NameStat) :=
  (answerColumn question_num).map (fun col => worstPerformingBy col subs)

/-! ## Aggregator: `get_question_rankings` (database.py lines 369-400) -/

/-- `ORDER BY count DESC, {column_name}` comparison for the top-3 query. -/
def topLe (a b : String × Nat) : Bool :=
  decide (b.2 < a.2) || (decide (a.2 = b.2) && strLe a.1 b.1)

/-- The top-3 query for one answer column: distinct chosen names with
their vote counts, ordered by count descending then name ascending,
limited to 3. -/
def topThreeBy (col : SubmissionRow → String) (subs : List SubmissionRow) :
    List (String × Nat) :=
  let votes := subs.map col
  (sortOrd topLe (votes.dedup.map (fun n => (n, votes.count n)))).take 3

/-- The ranking record built for each question. -/
structure Ranking where
  top_3 : List (String × Nat)
  bottom_3 : List NameStat
deriving Repr, DecidableEq

/-- The `f"q{question_num}"` key built for the rankings dict (only 1-5
occur in the loop). -/
def qLabel : Nat → String
  | 1 => "q1"
  | 2 => "q2"
  | 3 => "q3"
  | 4 => "q4"
  | 5 => "q5"
  | _ => "q?"

/-- `get_question_rankings`: for each question number 1-5, the top-3
vote ranking and the exposure-gap bottom-3, keyed by `"q{n}"`. (The
dynamic column always resolves for 1-5, so the `getD []` defaults are
never taken.) -/
def get_question_rankings (subs : List SubmissionRow) : List (String × Ranking) :=
  [1, 2, 3, 4, 5].map (fun qn =>
    (qLabel qn,
     { top_3 := ((answerColumn qn).map (fun col => topThreeBy col subs)).getD []
       bottom_3 := (get_worst_performing_names qn subs).getD [] }))


/-! ## Order lemmas for the sort comparators -/

theorem strLtAux_asymm (x y : List Char) (h : strLtAux x y = true) :
    strLtAux y x = false := by
  induction x generalizing y with
  | nil =>
    cases y with
    | nil => simp [strLtAux] at h
    | cons b bs => rfl
  | cons a as ih =>
    cases y with
    | nil => simp [strLtAux] at h
    | cons b bs =>
      simp only [strLtAux] at h ⊢
      split_ifs at h ⊢ <;>
        first
          | rfl
          | (exfalso; omega)
          | (exact ih bs h)

theorem strLtAux_neg_trans (x y z : List Char) (h1 : strLtAux x y = false)
    (h2 : strLtAux y z = false) : strLtAux x z = false := by
  induction x generalizing y z with
  | nil =>
    cases y with
    | nil =>
      cases z with
      | nil => rfl
      | cons c cs => simp [strLtAux] at h2
    | cons b bs => simp [strLtAux] at h1
  | cons a as ih =>
    cases z with
    | nil => rfl
    | cons c cs =>
      cases y with
      | nil => simp [strLtAux] at h2
      | cons b bs =>
        simp only [strLtAux] at h1 h2 ⊢
        split_ifs at h1 h2 ⊢ <;>
          first
            | rfl
            | (exfalso; omega)
            | (exact ih bs cs h1 h2)

theorem strLe_total (a b : String) : strLe a b = true ∨ strLe b a = true := by
  unfold strLe
  by_cases h : strLtAux b.data a.data = true
  · right; simp [strLtAux_asymm _ _ h]
  · left; simp [Bool.not_eq_true] at h; simp [h]

theorem strLe_trans (a b c : String) (h1 : strLe a b = true) (h2 : strLe b c = true) :
    strLe a c = true := by
  unfold strLe at h1 h2 ⊢
  simp only [Bool.not_eq_true'] at h1 h2 ⊢
  exact strLtAux_neg_trans c.data b.data a.data h2 h1

theorem worstLe_total (a b : NameStat) : worstLe a b = true ∨ worstLe b a = true := by
  unfold worstLe
  rcases lt_trichotomy a.gap b.gap with h | h | h
  · right; simp [h]
  · rcases strLe_total a.name b.name with hs | hs
    · left; simp [h, hs]
    · right; simp [h, hs]
  · left; simp [h]

theorem worstLe_trans (a b c : NameStat) (h1 : worstLe a b = true)
    (h2 : worstLe b c = true) : worstLe a c = true := by
  unfold worstLe at h1 h2 ⊢
  simp only [Bool.or_eq_true, Bool.and_eq_true, decide_eq_true_eq] at h1 h2 ⊢
  rcases h1 with h1 | ⟨h1, hs1⟩ <;> rcases h2 with h2 | ⟨h2, hs2⟩
  · left; omega
  · left; omega
  · left; omega
  · right; exact ⟨by omega, strLe_trans _ _ _ hs1 hs2⟩

theorem fidLe_total (a b : CounterRow) : fidLe a b = true ∨ fidLe b a = true := by
  unfold fidLe; simp; omega

theorem fidLe_trans (a b c : CounterRow) (h1 : fidLe a b = true)
    (h2 : fidLe b c = true) : fidLe a c = true := by
  unfold fidLe at h1 h2 ⊢; simp at h1 h2 ⊢; omega

/-! ## Insertion sort lemmas -/

theorem insertOrd_perm {α : Type} (le : α → α → Bool) (a : α) (l : List α) :
    (insertOrd le a l).Perm (a :: l) := by
  induction l with
  | nil => exact List.Perm.refl _
  | cons b bs ih =>
    unfold insertOrd
    split
    · exact List.Perm.refl _
    · exact (ih.cons b).trans (List.Perm.swap a b bs)

theorem sortOrd_perm {α : Type} (le : α → α → Bool) (l : List α) :
    (sortOrd le l).Perm l := by
  induction l with
  | nil => exact List.Perm.refl _
  | cons a as ih => exact (insertOrd_perm le a (sortOrd le as)).trans (ih.cons a)

theorem pairwise_insertOrd {α : Type} (le : α → α → Bool)
    (htot : ∀ a b, le a b = true ∨ le b a = true)
    (htrans : ∀ a b c, le a b = true → le b c = true → le a c = true)
    (a : α) (l : List α) (hl : l.Pairwise (fun x y => le x y = true)) :
    (insertOrd le a l).Pairwise (fun x y => le x y = true) := by
  induction l with
  | nil => simp [insertOrd]
  | cons b bs ih =>
    obtain ⟨hb, hbs⟩ := List.pairwise_cons.mp hl
    unfold insertOrd
    split
    · next hab =>
      refine List.Pairwise.cons ?_ hl
      intro y hy
      rcases List.mem_cons.mp hy with rfl | hybs
      · exact hab
      · exact htrans a b y hab (hb y hybs)
    · next hab =>
      have hba : le b a = true := by
        rcases htot a b with h | h
        · exact absurd h hab
        · exact h
      refine List.Pairwise.cons ?_ (ih hbs)
      intro y hy
      have hmem : y = a ∨ y ∈ bs := by
        have := (insertOrd_perm le a bs).mem_iff.mp hy
        simpa using this
      rcases hmem with rfl | hybs
      · exact hba
      · exact hb y hybs

theorem pairwise_sortOrd {α : Type} (le : α → α → Bool)
    (htot : ∀ a b, le a b = true ∨ le b a = true)
    (htrans : ∀ a b c, le a b = true → le b c = true → le a c = true)
    (l : List α) : (sortOrd le l).Pairwise (fun x y => le x y = true) := by
  induction l with
  | nil => simp [sortOrd]
  | cons a as ih => exact pairwise_insertOrd le htot htrans a (sortOrd le as) ih

theorem take_pairwise_dominates {α : Type} {R : α → α → Prop} (l : List α) (k : Nat)
    (h : l.Pairwise R) : ∀ a ∈ l.take k, ∀ b ∈ l.drop k, R a b := by
  rw [← List.take_append_drop k l] at h
  exact (List.pairwise_append.mp h).2.2


/-! ## Counting lemmas for the counter and submission tables -/

theorem counterVal_nil (fid : Nat) : counterVal [] fid = 0 := rfl

theorem counterVal_cons (r : CounterRow) (rows : List CounterRow) (fid : Nat) :
    counterVal (r :: rows) fid =
      (if r.form_id == fid then r.submission_count else 0) + counterVal rows fid := by
  by_cases h : r.form_id == fid <;> simp [counterVal, List.filter_cons, h]

theorem counterVal_append (rows rows' : List CounterRow) (fid : Nat) :
    counterVal (rows ++ rows') fid = counterVal rows fid + counterVal rows' fid := by
  simp [counterVal, List.filter_append]

theorem matchCount_nil (fid : Nat) : matchCount [] fid = 0 := rfl

theorem matchCount_cons (r : CounterRow) (rows : List CounterRow) (fid : Nat) :
    matchCount (r :: rows) fid =
      (if r.form_id == fid then 1 else 0) + matchCount rows fid := by
  by_cases h : r.form_id == fid <;> simp [matchCount, List.filter_cons, h] <;> omega

theorem matchCount_append (rows rows' : List CounterRow) (fid : Nat) :
    matchCount (rows ++ rows') fid = matchCount rows fid + matchCount rows' fid := by
  simp [matchCount, List.filter_append]

theorem matchCount_eq_count (rows : List CounterRow) (fid : Nat) :
    matchCount rows fid = (rows.map (fun r => r.form_id)).count fid := by
  induction rows with
  | nil => rfl
  | cons r rows ih =>
    rw [matchCount_cons, ih]
    by_cases h : r.form_id = fid <;> simp [List.count_cons, h] <;> omega

theorem matchCount_le_one (rows : List CounterRow) (fid : Nat)
    (h : (rows.map (fun r => r.form_id)).Nodup) : matchCount rows fid ≤ 1 := by
  rw [matchCount_eq_count]
  exact List.nodup_iff_count_le_one.mp h fid

theorem matchCount_pos_of_any (rows : List CounterRow) (fid : Nat)
    (h : rows.any (fun r => r.form_id == fid) = true) : 0 < matchCount rows fid := by
  induction rows with
  | nil => simp at h
  | cons r rows ih =>
    rw [matchCount_cons]
    simp only [List.any_cons, Bool.or_eq_true] at h
    rcases h with h | h
    · simp [h]
    · have := ih h; omega

theorem matchCount_zero_of_not_any (rows : List CounterRow) (fid : Nat)
    (h : rows.any (fun r => r.form_id == fid) = false) : matchCount rows fid = 0 := by
  induction rows with
  | nil => rfl
  | cons r rows ih =>
    rw [matchCount_cons]
    simp only [List.any_cons, Bool.or_eq_false_iff] at h
    rw [h.1, ih h.2]
    simp

theorem formSubCount_nil (fid : Nat) : formSubCount [] fid = 0 := rfl

theorem formSubCount_append (subs subs' : List SubmissionRow) (fid : Nat) :
    formSubCount (subs ++ subs') fid = formSubCount subs fid + formSubCount subs' fid := by
  simp [formSubCount, List.filter_append]

theorem formSubCount_singleton (s : SubmissionRow) (fid : Nat) :
    formSubCount [s] fid = if s.form_id == fid then 1 else 0 := by
  by_cases h : s.form_id == fid <;> simp [formSubCount, List.filter, h]

theorem counterVal_of_all_zero (rows : List CounterRow) (fid : Nat)
    (h : ∀ r ∈ rows, r.submission_count = 0) : counterVal rows fid = 0 := by
  induction rows with
  | nil => rfl
  | cons r rows ih =>
    rw [counterVal_cons, ih fun x hx => h x (List.mem_cons_of_mem r hx)]
    rw [h r (List.mem_cons_self r rows)]
    simp

theorem counterVal_map (rows : List CounterRow) (fid : Nat) (f : CounterRow → CounterRow)
    (hid : ∀ r, (f r).form_id = r.form_id)
    (hcnt : ∀ r, (f r).submission_count = r.submission_count) :
    counterVal (rows.map f) fid = counterVal rows fid := by
  induction rows with
  | nil => rfl
  | cons r rows ih => simp [counterVal_cons, hid, hcnt, ih]

theorem map_form_id_map (rows : List CounterRow) (f : CounterRow → CounterRow)
    (hid : ∀ r, (f r).form_id = r.form_id) :
    (rows.map f).map (fun r => r.form_id) = rows.map (fun r => r.form_id) := by
  rw [List.map_map]
  exact List.map_congr_left fun r _ => hid r

theorem counterVal_increment_self (rows : List CounterRow) (fid : Nat) :
    counterVal (incrementCounter rows fid) fid =
      counterVal rows fid + (matchCount rows fid : Int) := by
  induction rows with
  | nil => simp [incrementCounter, counterVal, matchCount]
  | cons r rows ih =>
    simp only [incrementCounter, List.map_cons] at ih ⊢
    rw [counterVal_cons, counterVal_cons, matchCount_cons]
    by_cases h : r.form_id == fid
    · simp only [h, if_true]
      simp only [ih]
      simp [h]
      ring
    · simp only [h, Bool.false_eq_true, if_false, ih]
      simp [h]

theorem counterVal_increment_ne (rows : List CounterRow) (fid fid' : Nat)
    (hne : fid ≠ fid') :
    counterVal (incrementCounter rows fid) fid' = counterVal rows fid' := by
  induction rows with
  | nil => simp [incrementCounter, counterVal]
  | cons r rows ih =>
    simp only [incrementCounter, List.map_cons] at ih ⊢
    rw [counterVal_cons, counterVal_cons]
    by_cases h : r.form_id == fid
    · have hfid : r.form_id = fid := by simpa using h
      have h' : (r.form_id == fid') = false := by
        simp [hfid]
        omega
      simp only [h, if_true, ih]
      simp [h']
    · simp only [h, Bool.false_eq_true, if_false, ih]

theorem counterVal_ensure (rows : List CounterRow) (fid fid' : Nat) :
    counterVal (ensureCounterRow rows fid) fid' = counterVal rows fid' := by
  unfold ensureCounterRow
  split
  · rfl
  · rw [counterVal_append, counterVal_cons, counterVal_nil]
    simp

theorem map_form_id_ensure_any (rows : List CounterRow) (fid : Nat)
    (h : rows.any (fun r => r.form_id == fid) = true) :
    ensureCounterRow rows fid = rows := by
  simp [ensureCounterRow, h]

theorem matchCount_ensure_self (rows : List CounterRow) (fid : Nat)
    (h : (rows.map (fun r => r.form_id)).Nodup) :
    matchCount (ensureCounterRow rows fid) fid = 1 := by
  unfold ensureCounterRow
  split
  · next hany =>
    have h1 := matchCount_le_one rows fid h
    have h2 := matchCount_pos_of_any rows fid hany
    omega
  · next hany =>
    rw [matchCount_append, matchCount_cons, matchCount_nil]
    have h0 : matchCount rows fid = 0 :=
      matchCount_zero_of_not_any rows fid (by simpa using hany)
    simp [h0]

theorem nodup_ensure (rows : List CounterRow) (fid : Nat)
    (h : (rows.map (fun r => r.form_id)).Nodup) :
    ((ensureCounterRow rows fid).map (fun r => r.form_id)).Nodup := by
  unfold ensureCounterRow
  split
  · exact h
  · next hany =>
    have hnotmem : fid ∉ rows.map (fun r => r.form_id) := by
      intro hmem
      obtain ⟨r, hr, hrfid⟩ := List.mem_map.mp hmem
      exact hany (List.any_eq_true.mpr ⟨r, hr, by simp [hrfid]⟩)
    rw [List.map_append]
    simp only [List.map_cons, List.map_nil]
    refine List.Nodup.append h (List.nodup_singleton fid) ?_
    intro x hx hx'
    simp only [List.mem_singleton] at hx'
    subst hx'
    exact hnotmem hx

theorem exists_form_id_map (rows : List CounterRow) (f : CounterRow → CounterRow)
    (hid : ∀ r, (f r).form_id = r.form_id) (fid : Nat)
    (h : ∃ r ∈ rows, r.form_id = fid) : ∃ r ∈ rows.map f, r.form_id = fid := by
  obtain ⟨r, hr, he⟩ := h
  exact ⟨f r, List.mem_map_of_mem f hr, by rw [hid]; exact he⟩

theorem exists_form_id_ensure (rows : List CounterRow) (fid fid' : Nat)
    (h : ∃ r ∈ rows, r.form_id = fid') :
    ∃ r ∈ ensureCounterRow rows fid, r.form_id = fid' := by
  unfold ensureCounterRow
  split
  · exact h
  · obtain ⟨r, hr, he⟩ := h
    exact ⟨r, List.mem_append_left _ hr, he⟩

theorem nonneg_ensure (rows : List CounterRow) (fid : Nat)
    (h : ∀ r ∈ rows, 0 ≤ r.submission_count) :
    ∀ r ∈ ensureCounterRow rows fid, 0 ≤ r.submission_count := by
  unfold ensureCounterRow
  split
  · exact h
  · intro r hr
    rcases List.mem_append.mp hr with hr' | hr'
    · exact h r hr'
    · simp at hr'
      rw [hr']

theorem nonneg_increment (rows : List CounterRow) (fid : Nat)
    (h : ∀ r ∈ rows, 0 ≤ r.submission_count) :
    ∀ r ∈ incrementCounter rows fid, 0 ≤ r.submission_count := by
  intro r' hr'
  unfold incrementCounter at hr'
  obtain ⟨r, hr, rfl⟩ := List.mem_map.mp hr'
  have := h r hr
  split <;> simp <;> omega

/-! ## `keyLt` order lemmas and the `LIMIT 1` minimum -/

theorem keyLt_irrefl (r : CounterRow) : keyLt r r = false := by
  simp [keyLt]

theorem keyLt_trans (a b c : CounterRow) (h1 : keyLt a b = true) (h2 : keyLt b c = true) :
    keyLt a c = true := by
  unfold keyLt at h1 h2 ⊢
  simp only [Bool.or_eq_true, Bool.and_eq_true, decide_eq_true_eq] at h1 h2 ⊢
  rcases h1 with h1 | ⟨h1, h1'⟩ <;> rcases h2 with h2 | ⟨h2, h2'⟩
  · left; omega
  · left; omega
  · left; omega
  · right; exact ⟨by omega, by omega⟩

theorem keyLt_neg_trans (a b c : CounterRow) (h1 : keyLt a b = false)
    (h2 : keyLt b c = false) : keyLt a c = false := by
  unfold keyLt at h1 h2 ⊢
  simp only [Bool.or_eq_false_iff, Bool.and_eq_false_iff, decide_eq_false_iff_not,
    not_lt] at h1 h2 ⊢
  constructor
  · omega
  · rcases h1.2 with h | h <;> rcases h2.2 with h' | h' <;>
      first | (left; omega) | (right; omega)

theorem foldlMin_spec (as : List CounterRow) (a : CounterRow) :
    (as.foldl (fun best x => if keyLt x best then x else best) a) ∈ a :: as ∧
      ∀ r ∈ a :: as,
        keyLt r (as.foldl (fun best x => if keyLt x best then x else best) a) = false := by
  induction as generalizing a with
  | nil => exact ⟨List.mem_cons_self a [], by simp [keyLt_irrefl]⟩
  | cons x xs ih =>
    simp only [List.foldl_cons]
    by_cases hxa : keyLt x a = true
    · rw [if_pos hxa]
      obtain ⟨hmem, hmin⟩ := ih x
      refine ⟨?_, ?_⟩
      · rcases List.mem_cons.mp hmem with h | h
        · exact List.mem_cons_of_mem a (by rw [h]; exact List.mem_cons_self x xs)
        · exact List.mem_cons_of_mem a (List.mem_cons_of_mem x h)
      · intro r hr
        rcases List.mem_cons.mp hr with rfl | hr'
        · have hxm := hmin x (List.mem_cons_self x xs)
          by_contra hc
          rw [Bool.not_eq_false] at hc
          exact absurd (keyLt_trans x r _ hxa hc) (by rw [hxm]; simp)
        · exact hmin r hr'
    · rw [if_neg hxa]
      have hxa' : keyLt x a = false := by
        rw [← Bool.not_eq_true]; exact hxa
      obtain ⟨hmem, hmin⟩ := ih a
      refine ⟨?_, ?_⟩
      · rcases List.mem_cons.mp hmem with h | h
        · rw [h]; exact List.mem_cons_self a (x :: xs)
        · exact List.mem_cons_of_mem a (List.mem_cons_of_mem x h)
      · intro r hr
        have hma := hmin a (List.mem_cons_self a xs)
        rcases List.mem_cons.mp hr with rfl | hr'
        · exact hma
        · rcases List.mem_cons.mp hr' with rfl | hr''
          · exact keyLt_neg_trans r a _ hxa' hma
          · exact hmin r (List.mem_cons_of_mem a hr'')

theorem selectMinRow_spec (rows : List CounterRow) (hne : rows ≠ []) :
    ∃ m, selectMinRow rows = some m ∧ m ∈ rows ∧ ∀ r ∈ rows, keyLt r m = false := by
  cases rows with
  | nil => exact absurd rfl hne
  | cons a as =>
    obtain ⟨hmem, hmin⟩ := foldlMin_spec as a
    exact ⟨_, rfl, hmem, hmin⟩


/-! ## The reachable-state invariant -/

theorem nodup_increment (rows : List CounterRow) (fid : Nat)
    (h : (rows.map (fun r => r.form_id)).Nodup) :
    ((incrementCounter rows fid).map (fun r => r.form_id)).Nodup := by
  unfold incrementCounter
  rw [map_form_id_map _ _ (fun r => by split <;> rfl)]
  exact h

theorem exists_form_id_increment (rows : List CounterRow) (fid fid' : Nat)
    (h : ∃ r ∈ rows, r.form_id = fid') :
    ∃ r ∈ incrementCounter rows fid, r.form_id = fid' := by
  unfold incrementCounter
  exact exists_form_id_map rows _ (fun r => by split <;> rfl) fid' h

theorem countersOk_init : CountersOk initTablesState := by
  refine ⟨by decide, by decide, by decide, fun fid => ?_⟩
  rw [counterVal_of_all_zero]
  · simp [initTablesState, formSubCount_nil]
  · decide

theorem countersOk_assign (st : DBState) (now : Nat) (h : CountersOk st) :
    CountersOk (get_least_submitted_form now st).2 := by
  obtain ⟨hnd, hpres, hpos, hval⟩ := h
  have hne : st.form_counters ≠ [] := by
    intro hnil
    obtain ⟨r, hr, _⟩ := hpres 1 (by decide)
    rw [hnil] at hr
    exact List.not_mem_nil r hr
  obtain ⟨m, hm, _, _⟩ := selectMinRow_spec st.form_counters hne
  simp only [get_least_submitted_form, hm]
  refine ⟨?_, ?_, ?_, ?_⟩ <;> dsimp only
  · unfold updateLastAssigned
    rw [map_form_id_map _ _ (fun r => by split <;> rfl)]
    exact hnd
  · intro fid hfid
    unfold updateLastAssigned
    exact exists_form_id_map _ _ (fun r => by split <;> rfl) fid (hpres fid hfid)
  · intro r' hr'
    unfold updateLastAssigned at hr'
    obtain ⟨r, hr, rfl⟩ := List.mem_map.mp hr'
    have := hpos r hr
    split <;> simpa
  · intro fid
    unfold updateLastAssigned
    rw [counterVal_map _ _ _ (fun r => by split <;> rfl) (fun r => by split <;> rfl)]
    exact hval fid

theorem countersOk_insert (st : DBState) (fid : Nat) (row : SubmissionRow)
    (hrow : row.form_id = fid) (nid : Nat) (h : CountersOk st) :
    CountersOk
      { form_counters := incrementCounter (ensureCounterRow st.form_counters fid) fid,
        submissions := st.submissions ++ [row], next_id := nid } := by
  obtain ⟨hnd, hpres, hpos, hval⟩ := h
  refine ⟨?_, ?_, ?_, ?_⟩ <;> dsimp only
  · exact nodup_increment _ _ (nodup_ensure _ _ hnd)
  · intro fid' hfid'
    exact exists_form_id_increment _ _ _ (exists_form_id_ensure _ _ _ (hpres fid' hfid'))
  · exact nonneg_increment _ _ (nonneg_ensure _ _ hpos)
  · intro fid'
    by_cases hef : fid = fid'
    · subst hef
      rw [counterVal_increment_self, counterVal_ensure, matchCount_ensure_self _ _ hnd,
        hval fid, formSubCount_append, formSubCount_singleton, hrow]
      simp
    · rw [counterVal_increment_ne _ _ _ hef, counterVal_ensure, hval fid',
        formSubCount_append, formSubCount_singleton, hrow]
      have hb : (fid == fid') = false := by
        simp only [beq_eq_false_iff_ne, ne_eq]
        exact hef
      simp [hb]

theorem save_submission_eq_noFault (fid : Nat) (sid : String)
    (ans : List (String × String)) (top bot : Option String) (now : Nat) (st : DBState)
    (a1 a2 a3 a4 a5 : String)
    (h1 : ans.lookup "q1" = some a1) (h2 : ans.lookup "q2" = some a2)
    (h3 : ans.lookup "q3" = some a3) (h4 : ans.lookup "q4" = some a4)
    (h5 : ans.lookup "q5" = some a5) :
    save_submission Fault.noFault fid sid ans top bot now st =
      (true,
       { form_counters := incrementCounter (ensureCounterRow st.form_counters fid) fid,
         submissions := st.submissions ++
           [{ id := st.next_id, form_id := fid, session_id := sid,
              submission_datetime := now, question_1_answer := a1,
              question_2_answer := a2, question_3_answer := a3,
              question_4_answer := a4, question_5_answer := a5,
              top_choice := top, bottom_choice := bot }],
         next_id := st.next_id + 1 }) := by
  simp only [save_submission, h1, h2, h3, h4, h5]

theorem countersOk_save (st : DBState) (f : Fault) (fid : Nat) (sid : String)
    (ans : List (String × String)) (top bot : Option String) (now : Nat)
    (hf : f = Fault.noFault ∨ f = Fault.insertFail) (h : CountersOk st) :
    CountersOk (save_submission f fid sid ans top bot now st).2 := by
  rcases hf with rfl | rfl
  · cases h1 : ans.lookup "q1" <;> cases h2 : ans.lookup "q2" <;>
      cases h3 : ans.lookup "q3" <;> cases h4 : ans.lookup "q4" <;>
        cases h5 : ans.lookup "q5" <;>
          simp only [save_submission, h1, h2, h3, h4, h5] <;>
            first
              | exact h
              | exact countersOk_insert st fid _ rfl _ h
  · cases h1 : ans.lookup "q1" <;> cases h2 : ans.lookup "q2" <;>
      cases h3 : ans.lookup "q3" <;> cases h4 : ans.lookup "q4" <;>
        cases h5 : ans.lookup "q5" <;>
          simp only [save_submission, h1, h2, h3, h4, h5] <;> exact h

theorem reachable_countersOk (st : DBState) (h : Reachable st) : CountersOk st := by
  induction h with
  | init => exact countersOk_init
  | assign st now _ ih => exact countersOk_assign st now ih
  | save st f fid sid ans top bot now hf _ ih =>
      exact countersOk_save st f fid sid ans top bot now hf ih


/-! ## Claim C1: the submission-count invariant -/

/-- C1: in every state reachable from the initialized database by any
sequence of allocator (`get_least_submitted_form`) calls and
`save_submission` calls, the stored `submission_count` of every form id
equals the number of `submissions` rows with that form id; each
`save_submission` step re-establishes the equality atomically with the
insert, since the insert and the increment are one transition. -/
theorem submission_count_invariant (st : DBState) (h : Reachable st) (fid : Nat) :
    counterVal st.form_counters fid = (formSubCount st.submissions fid : Int) :=
  (reachable_countersOk st h).2.2.2 fid

/-- The invariant checked at a concrete reachable state: after one
assignment and one saved submission for form 3. -/
theorem submission_count_invariant_witness :
    counterVal
        ((save_submission Fault.noFault 3 "s1"
            [("q1", "Philanthri"), ("q2", "Give Connects"), ("q3", "Donanthropy"),
             ("q4", "Humanitable"), ("q5", "Philanthri")] none none 7
            (get_least_submitted_form 5 initTablesState).2).2).form_counters 3 =
      (formSubCount
          ((save_submission Fault.noFault 3 "s1"
              [("q1", "Philanthri"), ("q2", "Give Connects"), ("q3", "Donanthropy"),
               ("q4", "Humanitable"), ("q5", "Philanthri")] none none 7
              (get_least_submitted_form 5 initTablesState).2).2).submissions 3 : Int) :=
  submission_count_invariant _
    (Reachable.save _ Fault.noFault 3 "s1" _ none none 7 (Or.inl rfl)
      (Reachable.assign initTablesState 5 Reachable.init)) 3

/-! ## Claim C9: failures roll back -/

/-- C9: `save_submission` reports success or failure instead of raising
(it is a total function on every input and storage behavior), and
whenever it reports failure the database state is exactly the pre-call
state: no submission row persisted, no counter changed. -/
theorem save_submission_failure_rolls_back (f : Fault) (fid : Nat) (sid : String)
    (ans : List (String × String)) (top bot : Option String) (now : Nat) (st : DBState) :
    (save_submission f fid sid ans top bot now st).1 = true ∨
      ((save_submission f fid sid ans top bot now st).1 = false ∧
        (save_submission f fid sid ans top bot now st).2 = st) := by
  cases h1 : ans.lookup "q1" <;> cases h2 : ans.lookup "q2" <;>
    cases h3 : ans.lookup "q3" <;> cases h4 : ans.lookup "q4" <;>
      cases h5 : ans.lookup "q5" <;>
        cases f <;> simp [save_submission, h1, h2, h3, h4, h5]

/-! ## Claim C10: missing answers fail and change nothing -/

/-- C10: a `save_submission` call whose answers dict is missing any of
the keys q1-q5 returns `False` (the `KeyError` is caught) and leaves the
store unchanged: no submission row and no counter modification. -/
theorem save_submission_missing_answer_fails (f : Fault) (fid : Nat) (sid : String)
    (ans : List (String × String)) (top bot : Option String) (now : Nat) (st : DBState)
    (h : ans.lookup "q1" = none ∨ ans.lookup "q2" = none ∨ ans.lookup "q3" = none ∨
      ans.lookup "q4" = none ∨ ans.lookup "q5" = none) :
    save_submission f fid sid ans top bot now st = (false, st) := by
  cases h1 : ans.lookup "q1" <;> cases h2 : ans.lookup "q2" <;>
    cases h3 : ans.lookup "q3" <;> cases h4 : ans.lookup "q4" <;>
      cases h5 : ans.lookup "q5" <;>
        simp only [save_submission, h1, h2, h3, h4, h5] <;>
          rcases h with h | h | h | h | h <;>
            first
              | rfl
              | (rw [h1] at h; exact Option.noConfusion h)
              | (rw [h2] at h; exact Option.noConfusion h)
              | (rw [h3] at h; exact Option.noConfusion h)
              | (rw [h4] at h; exact Option.noConfusion h)
              | (rw [h5] at h; exact Option.noConfusion h)

/-- C10 at a concrete input: the q3 answer is missing, so the call
fails and returns the store unchanged. -/
theorem save_submission_missing_answer_fails_witness :
    save_submission Fault.noFault 2 "s2"
        [("q1", "Causenex"), ("q2", "Tomatchin"), ("q4", "Givanthropy"),
         ("q5", "Causenex")] none none 9 initTablesState =
      (false, initTablesState) :=
  save_submission_missing_answer_fails Fault.noFault 2 "s2" _ none none 9 initTablesState
    (Or.inr (Or.inr (Or.inl (by decide))))

/-! ## Claim C8: rankings on an empty table -/

/-- C8: on an empty submissions table `get_question_rankings` returns,
for every configured question q1-q5, a ranking whose top-3 and bottom-3
lists are both empty, rather than an error. -/
theorem question_rankings_empty_table :
    get_question_rankings [] =
      [("q1", ⟨[], []⟩), ("q2", ⟨[], []⟩), ("q3", ⟨[], []⟩),
       ("q4", ⟨[], []⟩), ("q5", ⟨[], []⟩)] := by
  decide

/-! ## Claim C5: the first two assignments -/

/-- C5: when all configured forms have `submission_count` 0 and NULL
`last_assigned` (the initialized state), the first allocator call
deterministically returns form 1 — the lowest form id under the stable
tie-break — and a second call made before any submission returns form 2,
a different form than the first. -/
theorem first_two_assignments_differ (t1 t2 : Nat) (h1 : 0 < t1) :
    (get_least_submitted_form t1 initTablesState).1 = 1 ∧
      (get_least_submitted_form t2 (get_least_submitted_form t1 initTablesState).2).1 = 2 ∧
      (get_least_submitted_form t2 (get_least_submitted_form t1 initTablesState).2).1 ≠
        (get_least_submitted_form t1 initTablesState).1 := by
  have e1 : get_least_submitted_form t1 initTablesState =
      (1,
       { form_counters :=
           [⟨1, 0, some t1⟩, ⟨2, 0, none⟩, ⟨3, 0, none⟩, ⟨4, 0, none⟩,
            ⟨5, 0, none⟩, ⟨6, 0, none⟩],
         submissions := [], next_id := 1 }) := rfl
  have e2 : (get_least_submitted_form t2 (get_least_submitted_form t1 initTablesState).2).1 = 2 := by
    rw [e1]
    simp only [get_least_submitted_form, selectMinRow, List.foldl_cons, List.foldl_nil, keyLt]
    simp [h1]
  have a1 : (get_least_submitted_form t1 initTablesState).1 = 1 := by rw [e1]
  exact ⟨a1, e2, by rw [e2, a1]; decide⟩

/-! ## Claim C3: counter-step failure loses the submission (code bug) -/

/-- C3's required behavior — a counter-increment failure after a
successful submission insert must leave the submission committed, with
only the increment loss tolerated — is not what the program does. The
database error in the counter step aborts the psycopg2 transaction, so
the closing commit is executed by the server as a rollback and the
staged submission insert is discarded while success is still reported.
At this concrete failing input (the counter `UPDATE` raising during a
fully answered save for form 4 on the initialized store) the call
returns `True` yet the store is exactly the pre-call state — the
submissions table is still empty, so the inserted row was rolled back,
contradicting the claim, the spec's PartialWriteRisk design and the
code's own log line saying the submission was still saved. -/
theorem counter_failure_loses_submission :
    save_submission Fault.counterUpdateFail 4 "s3"
        [("q1", "Givio Gives"), ("q2", "Humanitable"), ("q3", "Givanthropy"),
         ("q4", "Philanthrifound"), ("q5", "Givio Gives")] (some "liked it") none 11
        initTablesState =
      (true, initTablesState) ∧
    (save_submission Fault.counterUpdateFail 4 "s3"
        [("q1", "Givio Gives"), ("q2", "Humanitable"), ("q3", "Givanthropy"),
         ("q4", "Philanthrifound"), ("q5", "Givio Gives")] (some "liked it") none 11
        initTablesState).2.submissions = [] := by
  decide


/-- C5 at concrete call times 5 and 9. -/
theorem first_two_assignments_differ_witness :
    (get_least_submitted_form 5 initTablesState).1 = 1 ∧
      (get_least_submitted_form 9 (get_least_submitted_form 5 initTablesState).2).1 = 2 ∧
      (get_least_submitted_form 9 (get_least_submitted_form 5 initTablesState).2).1 ≠
        (get_least_submitted_form 5 initTablesState).1 :=
  first_two_assignments_differ 5 9 (by decide)

/-! ## Claim C2: the effect of a successful save -/

/-- C2: a fault-free `save_submission` call that reports success appends
exactly one new submission row — holding the given answers, session id
and optional free-text fields — and no other row, and makes the stored
`submission_count` for the given form exactly 1 greater than before,
leaving every other form's counter unchanged. (The `Nodup` hypothesis is
the counter table's primary-key uniqueness, true in every reachable
state.) -/
theorem save_submission_success_effect (fid : Nat) (sid : String)
    (ans : List (String × String)) (top bot : Option String) (now : Nat) (st : DBState)
    (hnd : (st.form_counters.map (fun r => r.form_id)).Nodup)
    (hsucc : (save_submission Fault.noFault fid sid ans top bot now st).1 = true) :
    (save_submission Fault.noFault fid sid ans top bot now st).2.submissions =
        st.submissions ++
          [{ id := st.next_id, form_id := fid, session_id := sid,
             submission_datetime := now,
             question_1_answer := (ans.lookup "q1").getD "",
             question_2_answer := (ans.lookup "q2").getD "",
             question_3_answer := (ans.lookup "q3").getD "",
             question_4_answer := (ans.lookup "q4").getD "",
             question_5_answer := (ans.lookup "q5").getD "",
             top_choice := top, bottom_choice := bot }] ∧
      counterVal (save_submission Fault.noFault fid sid ans top bot now st).2.form_counters
          fid =
        counterVal st.form_counters fid + 1 ∧
      ∀ fid', fid' ≠ fid →
        counterVal (save_submission Fault.noFault fid sid ans top bot now st).2.form_counters
            fid' =
          counterVal st.form_counters fid' := by
  cases h1 : ans.lookup "q1" <;> cases h2 : ans.lookup "q2" <;>
    cases h3 : ans.lookup "q3" <;> cases h4 : ans.lookup "q4" <;>
      cases h5 : ans.lookup "q5" <;>
        simp only [save_submission, h1, h2, h3, h4, h5, Bool.false_eq_true] at hsucc
  rw [save_submission_eq_noFault fid sid ans top bot now st _ _ _ _ _ h1 h2 h3 h4 h5]
  refine ⟨by simp [h1, h2, h3, h4, h5], ?_, ?_⟩
  · dsimp only
    rw [counterVal_increment_self, counterVal_ensure, matchCount_ensure_self _ _ hnd]
    simp
  · intro fid' hne
    dsimp only
    rw [counterVal_increment_ne _ _ _ (fun hh => hne hh.symm), counterVal_ensure]

/-- C2 at a concrete input: a successful save for form 2 on the
initialized store. -/
theorem save_submission_success_effect_witness :
    (save_submission Fault.noFault 2 "s4"
          [("q1", "Causenex"), ("q2", "Tomatchin"), ("q3", "Givanthropy"),
           ("q4", "Philanthrifound"), ("q5", "Causenex")] none (some "odd ones") 13
          initTablesState).2.submissions =
        initTablesState.submissions ++
          [{ id := initTablesState.next_id, form_id := 2, session_id := "s4",
             submission_datetime := 13,
             question_1_answer :=
               (List.lookup "q1"
                   [("q1", "Causenex"), ("q2", "Tomatchin"), ("q3", "Givanthropy"),
                    ("q4", "Philanthrifound"), ("q5", "Causenex")]).getD "",
             question_2_answer :=
               (List.lookup "q2"
                   [("q1", "Causenex"), ("q2", "Tomatchin"), ("q3", "Givanthropy"),
                    ("q4", "Philanthrifound"), ("q5", "Causenex")]).getD "",
             question_3_answer :=
               (List.lookup "q3"
                   [("q1", "Causenex"), ("q2", "Tomatchin"), ("q3", "Givanthropy"),
                    ("q4", "Philanthrifound"), ("q5", "Causenex")]).getD "",
             question_4_answer :=
               (List.lookup "q4"
                   [("q1", "Causenex"), ("q2", "Tomatchin"), ("q3", "Givanthropy"),
                    ("q4", "Philanthrifound"), ("q5", "Causenex")]).getD "",
             question_5_answer :=
               (List.lookup "q5"
                   [("q1", "Causenex"), ("q2", "Tomatchin"), ("q3", "Givanthropy"),
                    ("q4", "Philanthrifound"), ("q5", "Causenex")]).getD "",
             top_choice := none, bottom_choice := some "odd ones" }] ∧
      counterVal
          (save_submission Fault.noFault 2 "s4"
              [("q1", "Causenex"), ("q2", "Tomatchin"), ("q3", "Givanthropy"),
               ("q4", "Philanthrifound"), ("q5", "Causenex")] none (some "odd ones") 13
              initTablesState).2.form_counters 2 =
        counterVal initTablesState.form_counters 2 + 1 ∧
      ∀ fid', fid' ≠ 2 →
        counterVal
            (save_submission Fault.noFault 2 "s4"
                [("q1", "Causenex"), ("q2", "Tomatchin"), ("q3", "Givanthropy"),
                 ("q4", "Philanthrifound"), ("q5", "Causenex")] none (some "odd ones") 13
                initTablesState).2.form_counters fid' =
          counterVal initTablesState.form_counters fid' :=
  save_submission_success_effect 2 "s4"
    [("q1", "Causenex"), ("q2", "Tomatchin"), ("q3", "Givanthropy"),
     ("q4", "Philanthrifound"), ("q5", "Causenex")] none (some "odd ones") 13
    initTablesState (by decide) (by decide)

/-! ## Claim C4: the allocator selects the minimum and stamps it -/

/-- C4: with a nonempty counter table, every allocator call returns
exactly one form id — that of a row minimizing the
(submission_count, coalesced last_assigned) sort key, i.e. least
submissions first with ties to the oldest assignment — and, on every
call, stamps that form's `last_assigned` with the current time while
leaving submissions untouched; under the key, a NULL `last_assigned`
sorts before any real (positive) timestamp at equal counts. -/
theorem assign_form_selects_minimum (st : DBState) (now : Nat)
    (hne : st.form_counters ≠ []) :
    (∃ r ∈ st.form_counters,
        r.form_id = (get_least_submitted_form now st).1 ∧
          ∀ rr ∈ st.form_counters, keyLt rr r = false) ∧
      (get_least_submitted_form now st).2.form_counters =
        updateLastAssigned st.form_counters (get_least_submitted_form now st).1 now ∧
      (get_least_submitted_form now st).2.submissions = st.submissions ∧
      (∃ rr ∈ (get_least_submitted_form now st).2.form_counters,
          rr.form_id = (get_least_submitted_form now st).1 ∧
            rr.last_assigned = some now) ∧
      ∀ a b : CounterRow, a.submission_count = b.submission_count →
        a.last_assigned = none → ∀ t, b.last_assigned = some t → 0 < t →
          keyLt a b = true := by
  obtain ⟨m, hm, hmem, hmin⟩ := selectMinRow_spec st.form_counters hne
  simp only [get_least_submitted_form, hm]
  refine ⟨⟨m, hmem, by trivial, hmin⟩, by trivial, by trivial, ?_, ?_⟩
  · refine ⟨{ m with last_assigned := some now }, ?_, rfl, rfl⟩
    unfold updateLastAssigned
    have he : ({ m with last_assigned := some now } : CounterRow) =
        (fun r =>
          if r.form_id == m.form_id then { r with last_assigned := some now } else r) m := by
      simp
    rw [he]
    exact List.mem_map_of_mem _ hmem
  · intro a b hc hn t hs ht
    simp [keyLt, hc, hn, hs, ht]

/-- C4 at a concrete input: the initialized table at call time 7. -/
theorem assign_form_selects_minimum_witness :
    (∃ r ∈ initTablesState.form_counters,
        r.form_id = (get_least_submitted_form 7 initTablesState).1 ∧
          ∀ rr ∈ initTablesState.form_counters, keyLt rr r = false) ∧
      (get_least_submitted_form 7 initTablesState).2.form_counters =
        updateLastAssigned initTablesState.form_counters
          (get_least_submitted_form 7 initTablesState).1 7 ∧
      (get_least_submitted_form 7 initTablesState).2.submissions =
        initTablesState.submissions ∧
      (∃ rr ∈ (get_least_submitted_form 7 initTablesState).2.form_counters,
          rr.form_id = (get_least_submitted_form 7 initTablesState).1 ∧
            rr.last_assigned = some 7) ∧
      ∀ a b : CounterRow, a.submission_count = b.submission_count →
        a.last_assigned = none → ∀ t, b.last_assigned = some t → 0 < t →
          keyLt a b = true :=
  assign_form_selects_minimum initTablesState 7 (by decide)


/-! ## Claim C7: form statistics are complete, non-negative and ordered -/

/-- C7: in every reachable state, `get_form_statistics` returns a map
with an entry for every configured form — including forms with zero
submissions (count 0) — no negative count, and keys in strictly
increasing form-id order. -/
theorem form_statistics_complete (st : DBState) (h : Reachable st) :
    (∀ fid ∈ configuredFormIds, ∃ c, (fid, c) ∈ get_form_statistics st) ∧
      (∀ p ∈ get_form_statistics st, 0 ≤ p.2) ∧
      List.Pairwise (fun p q => p.1 < q.1) (get_form_statistics st) := by
  obtain ⟨hnd, hpres, hpos, _⟩ := reachable_countersOk st h
  refine ⟨?_, ?_, ?_⟩
  · intro fid hfid
    obtain ⟨r, hr, hrfid⟩ := hpres fid hfid
    have hr' : r ∈ sortOrd fidLe st.form_counters :=
      ((sortOrd_perm fidLe st.form_counters).mem_iff).mpr hr
    refine ⟨r.submission_count, ?_⟩
    unfold get_form_statistics
    exact hrfid ▸ List.mem_map_of_mem _ hr'
  · intro p hp
    unfold get_form_statistics at hp
    obtain ⟨r, hr, rfl⟩ := List.mem_map.mp hp
    exact hpos r (((sortOrd_perm fidLe st.form_counters).mem_iff).mp hr)
  · unfold get_form_statistics
    rw [List.pairwise_map]
    have hsorted := pairwise_sortOrd fidLe fidLe_total fidLe_trans st.form_counters
    have hnd' : ((sortOrd fidLe st.form_counters).map (fun r => r.form_id)).Nodup :=
      (((sortOrd_perm fidLe st.form_counters).map (fun r => r.form_id)).symm).nodup hnd
    have hne : (sortOrd fidLe st.form_counters).Pairwise
        (fun a b => a.form_id ≠ b.form_id) := List.pairwise_map.mp hnd'
    exact (hsorted.and hne).imp fun hab =>
      Nat.lt_of_le_of_ne (by simpa [fidLe] using hab.1) hab.2

/-- C7 at a concrete reachable state: the initialized database. -/
theorem form_statistics_complete_witness :
    (∀ fid ∈ configuredFormIds, ∃ c, (fid, c) ∈ get_form_statistics initTablesState) ∧
      (∀ p ∈ get_form_statistics initTablesState, 0 ≤ p.2) ∧
      List.Pairwise (fun p q => p.1 < q.1) (get_form_statistics initTablesState) :=
  form_statistics_complete initTablesState Reachable.init


/-! ## Claim C6: the exposure-gap bottom-3 ranking -/

theorem count_replicate_eq (a b : String) (k : Nat) :
    (List.replicate k b).count a = if a = b then k else 0 := by
  rw [List.count_replicate]
  by_cases h : a = b
  · subst h; simp
  · have hb : (b == a) = false := by
      simp only [beq_eq_false_iff_ne, ne_eq]
      exact fun hh => h hh.symm
    simp [hb, h]

/-- The exposure count computed by the query's hardcoded `UNION ALL`
branches agrees with the `FORMS` catalog: a name's exposures are the
submissions on the forms that list it as a candidate. -/
theorem exposureCount_eq_forms (subs : List SubmissionRow) (n : String) :
    exposureCount subs n =
      (FORMS.map (fun p => if n ∈ p.2 then formSubCount subs p.1 else 0)).sum := by
  unfold exposureCount allExposures exposureEntries FORMS
  simp only [List.flatMap_cons, List.flatMap_nil, List.count_append, count_replicate_eq,
    List.append_nil, List.map_cons, List.map_nil, List.sum_cons, List.sum_nil,
    List.mem_cons, List.not_mem_nil, List.mem_singleton, or_false, add_zero]
  by_cases e1 : n = "Philanthrifind"
  · subst e1; simp
  by_cases e2 : n = "Give-io"
  · subst e2; simp
  by_cases e3 : n = "Donathropy"
  · subst e3; simp
  by_cases e4 : n = "Kinderfully"
  · subst e4; simp
  by_cases e5 : n = "Philanthrifound"
  · subst e5; simp
  by_cases e6 : n = "Causenex"
  · subst e6; simp
  by_cases e7 : n = "Givanthropy"
  · subst e7; simp
  by_cases e8 : n = "Tomatchin"
  · subst e8; simp
  by_cases e9 : n = "Philanthri"
  · subst e9; simp
  by_cases e10 : n = "Give Connects"
  · subst e10; simp
  by_cases e11 : n = "Donanthropy"
  · subst e11; simp
  by_cases e12 : n = "Humanitable"
  · subst e12; simp
  by_cases e13 : n = "Givio Gives"
  · subst e13; simp
  simp [e1, e2, e3, e4, e5, e6, e7, e8, e9, e10, e11, e12, e13]

theorem worstLe_iff (a b : NameStat) :
    worstLe a b = true ↔
      b.gap < a.gap ∨ (a.gap = b.gap ∧ strLe a.name b.name = true) := by
  unfold worstLe
  simp [Bool.or_eq_true, Bool.and_eq_true, decide_eq_true_eq]

/-- C6: for every question and every submissions-table state, the
bottom-3 returned by `get_worst_performing_names` consists of the
exposed names' statistics rows — exposure count, vote count for that
question, and their gap, with exposure counted over the forms that list
the name and a never-shown name (zero exposures) excluded rather than
erroring — limited to (at most) 3 rows, ordered by gap descending with
ties broken alphabetically, and such that every included row ranks no
worse than every excluded exposed name. -/
theorem worst_performing_correct (qn : Nat) (col : SubmissionRow → String)
    (subs : List SubmissionRow) (hq : answerColumn qn = some col) :
    get_worst_performing_names qn subs = some (worstPerformingBy col subs) ∧
      (worstPerformingBy col subs).length = min 3 (exposedStats col subs).length ∧
      (∀ s ∈ worstPerformingBy col subs, s ∈ exposedStats col subs) ∧
      (∀ s ∈ worstPerformingBy col subs,
        s.exposure_count = exposureCount subs s.name ∧
          s.vote_count = voteCountBy col subs s.name ∧
          s.gap = (s.exposure_count : Int) - (s.vote_count : Int) ∧
          0 < s.exposure_count) ∧
      (∀ n : String, exposureCount subs n =
        (FORMS.map (fun p => if n ∈ p.2 then formSubCount subs p.1 else 0)).sum) ∧
      List.Pairwise
        (fun a b => b.gap < a.gap ∨ (a.gap = b.gap ∧ strLe a.name b.name = true))
        (worstPerformingBy col subs) ∧
      ∀ s ∈ exposedStats col subs, s ∉ worstPerformingBy col subs →
        ∀ t ∈ worstPerformingBy col subs,
          s.gap < t.gap ∨ (t.gap = s.gap ∧ strLe t.name s.name = true) := by
  have hperm := sortOrd_perm worstLe (exposedStats col subs)
  have hpw := pairwise_sortOrd worstLe worstLe_total worstLe_trans (exposedStats col subs)
  refine ⟨by simp [get_worst_performing_names, hq], ?_, ?_, ?_, ?_, ?_, ?_⟩
  · unfold worstPerformingBy
    rw [List.length_take, hperm.length_eq]
  · intro s hs
    exact hperm.subset (List.take_subset 3 _ hs)
  · intro s hs
    have hs' : s ∈ exposedStats col subs := hperm.subset (List.take_subset 3 _ hs)
    unfold exposedStats at hs'
    obtain ⟨n, hn, rfl⟩ := List.mem_map.mp hs'
    refine ⟨rfl, rfl, rfl, ?_⟩
    exact List.count_pos_iff.mpr (List.mem_dedup.mp hn)
  · exact exposureCount_eq_forms subs
  · exact ((hpw.sublist (List.take_sublist 3 _)).imp fun hab => (worstLe_iff _ _).mp hab)
  · intro s hs hsnot t ht
    have hs' : s ∈ sortOrd worstLe (exposedStats col subs) := hperm.mem_iff.mpr hs
    have hdrop : s ∈ (sortOrd worstLe (exposedStats col subs)).drop 3 := by
      rcases List.mem_append.mp
          (by rw [List.take_append_drop]; exact hs' :
            s ∈ (sortOrd worstLe (exposedStats col subs)).take 3 ++
              (sortOrd worstLe (exposedStats col subs)).drop 3) with h | h
      · exact absurd h hsnot
      · exact h
    exact (worstLe_iff t s).mp
      (take_pairwise_dominates _ 3 hpw t ht s hdrop)


/-- C6 at a concrete input: question 1 over a table with one submission
on form 1. -/
theorem worst_performing_correct_witness :
    get_worst_performing_names 1 sampleSubs =
        some (worstPerformingBy (fun s => s.question_1_answer) sampleSubs) ∧
      (worstPerformingBy (fun s => s.question_1_answer) sampleSubs).length =
        min 3 (exposedStats (fun s => s.question_1_answer) sampleSubs).length ∧
      (∀ s ∈ worstPerformingBy (fun s => s.question_1_answer) sampleSubs,
        s ∈ exposedStats (fun s => s.question_1_answer) sampleSubs) ∧
      (∀ s ∈ worstPerformingBy (fun s => s.question_1_answer) sampleSubs,
        s.exposure_count = exposureCount sampleSubs s.name ∧
          s.vote_count = voteCountBy (fun s => s.question_1_answer) sampleSubs s.name ∧
          s.gap = (s.exposure_count : Int) - (s.vote_count : Int) ∧
          0 < s.exposure_count) ∧
      (∀ n : String, exposureCount sampleSubs n =
        (FORMS.map (fun p => if n ∈ p.2 then formSubCount sampleSubs p.1 else 0)).sum) ∧
      List.Pairwise
        (fun a b => b.gap < a.gap ∨ (a.gap = b.gap ∧ strLe a.name b.name = true))
        (worstPerformingBy (fun s => s.question_1_answer) sampleSubs) ∧
      ∀ s ∈ exposedStats (fun s => s.question_1_answer) sampleSubs,
        s ∉ worstPerformingBy (fun s => s.question_1_answer) sampleSubs →
          ∀ t ∈ worstPerformingBy (fun s => s.question_1_answer) sampleSubs,
            s.gap < t.gap ∨ (t.gap = s.gap ∧ strLe t.name s.name = true) :=
  worst_performing_correct 1 (fun s => s.question_1_answer) sampleSubs rfl

end MarketResearch
